import Mathlib

set_option linter.unusedVariables false

/-!
Shallow embedding of the library web application (src/app.py together with the
table declarations of src/data_models.py).  The relational store is a pair of
row lists; each Flask route handler becomes a pure function over that store.
SQL semantics that the ORM delegates to SQLite — three-valued logic for
`NOT IN` over a nullable column, `INNER JOIN`, `ORDER BY`, and the `LIKE`
pattern matcher that `ilike` compiles to — are embedded explicitly.
-/

/-- Author row of data_models.py: integer primary key (`author_id`), required
`name`, and two further string columns.  `add_author` always supplies all three
strings from the form, so they are modelled as plain strings. -/
structure Author where
  author_id : Nat
  name : String
  birthdate : String
  date_of_death : String
deriving DecidableEq, Repr

/-- Book row of data_models.py: integer primary key (`book_id`), required
`isbn` and `title`, optional `publication_year`, nullable foreign key
`author_id` into the author table, and the `image_url` text column. -/
structure Book where
  book_id : Nat
  isbn : String
  title : String
  publication_year : Option Int
  author_id : Option Nat
  image_url : String
deriving DecidableEq, Repr

/-- The persistent store: the two tables managed by the SQLAlchemy session. -/
structure DB where
  authors : List Author
  books : List Book
deriving DecidableEq, Repr

/-- SQL three-valued logic for `x NOT IN (SELECT col ...)` where the selected
column is nullable and `x` itself is non-null: the predicate is TRUE only when
`x` is not among the selected values and NULL is not among them either (a NULL
in the list makes the comparison UNKNOWN, and an UNKNOWN row is not selected). -/
def sqlNotIn (x : Nat) (vals : List (Option Nat)) : Bool :=
  !vals.contains (some x) && !vals.contains none

/-- Result of the delete route: a redirect to the home page on success, or the
404 response `"No book found with ID {book_id}"` when the book is absent. -/
inductive DeleteResult
  | redirectHome
  | notFound (book_id : Nat)
deriving DecidableEq, Repr

/-- Route `POST /book/<book_id>/delete` of app.py: `Book.query.get(book_id)`;
if absent, the 404 branch leaves the session untouched.  Otherwise the book row
is deleted and committed, then every author whose `author_id` satisfies
`NOT IN (SELECT DISTINCT book.author_id FROM book)` is deleted and committed.
`distinct()` does not change `NOT IN` membership, so the plain column list is
used for the subquery. -/
def delete (book_id : Nat) (db : DB) : DeleteResult × DB :=
  match db.books.find? (fun b => b.book_id == book_id) with
  | none => (.notFound book_id, db)
  | some _ =>
    let books' := db.books.filter (fun b => b.book_id != book_id)
    let authors_ids_with_books := books'.map (fun b => b.author_id)
    let authors' := db.authors.filter (fun a => !sqlNotIn a.author_id authors_ids_with_books)
    (.redirectHome, ⟨authors', books'⟩)

/-- Test whether `f` holds of some suffix of the list (the list itself and the
empty suffix included). -/
def anySuffix (f : List Char → Bool) : List Char → Bool
  | [] => f []
  | c :: s => f (c :: s) || anySuffix f s

/-- SQL `LIKE` matcher on code points: `%` matches any sequence, `_` any single
character, anything else itself.  This is the matcher `ilike` compiles to,
applied after both sides are case-folded. -/
def likeMatch : List Char → List Char → Bool
  | [], s => s.isEmpty
  | p :: ps, s =>
    if p == '%' then anySuffix (likeMatch ps) s
    else
      match s with
      | [] => false
      | c :: s' => (p == '_' || p == c) && likeMatch ps s'

/-- ASCII-only case folding of a code-point list: `lower()` of SQLite, which
`ilike` applies to both the column and the pattern; `Char.toLower` is exactly
this ASCII folding. -/
def foldCase (l : List Char) : List Char := l.map Char.toLower

/-- Result of the home route: the rendered page with its book list, or the
plain `"No books found"` response. -/
inductive HomeResult
  | noBooksFound
  | page (books : List Book)
deriving DecidableEq, Repr

/-- POST branch of the home route in app.py:
`Book.query.filter(Book.title.ilike(f"%{search}%"))`, answered with the plain
"No books found" string when the result list is empty and the rendered page
with the matching books otherwise. -/
def home_post (search : String) (db : DB) : HomeResult :=
  let pattern := "%" ++ search ++ "%"
  let books := db.books.filter (fun b => likeMatch (foldCase pattern.data) (foldCase b.title.data))
  if books.length = 0 then .noBooksFound else .page books

/-- Test that `n` is an initial segment of `h` (code-point lists). -/
def startsWithChars : List Char → List Char → Bool
  | [], _ => true
  | _ :: _, [] => false
  | c :: n, d :: h => c == d && startsWithChars n h

/-- Containment of `n` in `h` as a contiguous substring — the specification's
notion of "the title contains the search term". -/
def containsSub (n : List Char) : List Char → Bool
  | [] => n.isEmpty
  | c :: h => startsWithChars n (c :: h) || containsSub n h

/-- Route `GET /sort_by_title` of app.py: `Book.query.order_by(Book.title)` —
all book rows, ordered by the title column. -/
def sort_by_title (db : DB) : List Book :=
  List.insertionSort (fun b1 b2 => b1.title ≤ b2.title) db.books

/-- Rows the `INNER JOIN` of `Book.query.join(Author)` produces for one book:
one `(book, author)` pair per author row matching the book's foreign key; a
book with a NULL or dangling `author_id` produces no row. -/
def joinAuthor (db : DB) (b : Book) : List (Book × Author) :=
  (db.authors.filter (fun a => b.author_id == some a.author_id)).map (fun a => (b, a))

/-- Route `GET /sort_by_author` of app.py:
`Book.query.join(Author).order_by(Author.name)` — the joined rows ordered by
the author name column, projected back to books; `joinedload` only changes the
loading strategy, not the result set. -/
def sort_by_author (db : DB) : List Book :=
  (List.insertionSort (fun r1 r2 => r1.2.name ≤ r2.2.name)
    (db.books.flatMap (joinAuthor db))).map (fun r => r.1)

/-- Name of the author a book references, resolved through the Author relation
(empty when the reference is NULL or dangling). -/
def authorName (db : DB) (b : Book) : String :=
  match db.authors.find? (fun a => b.author_id == some a.author_id) with
  | some a => a.name
  | none => ""

/-- SQLite rowid assignment for an insert into the author table: one more than
the largest existing id. -/
def next_author_id (db : DB) : Nat :=
  (db.authors.map (fun a => a.author_id)).foldr max 0 + 1

/-- SQLite rowid assignment for an insert into the book table. -/
def next_book_id (db : DB) : Nat :=
  (db.books.map (fun b => b.book_id)).foldr max 0 + 1

/-- Fields of the add-author form (all present: `request.form[...]` is only
reached when the field was submitted). -/
structure AuthorForm where
  name : String
  birthdate : String
  date_of_death : String
deriving DecidableEq, Repr

/-- POST branch of `/add_author` in app.py: build the new `Author` from the
form fields, add it to the session, commit, and return the success message. -/
def add_author (form : AuthorForm) (db : DB) : String × DB :=
  ("New author successfully added to database",
    ⟨db.authors ++ [⟨next_author_id db, form.name, form.birthdate, form.date_of_death⟩],
      db.books⟩)

/-- Primary-key lookup of an author: reading the stored record back. -/
def get_author (db : DB) (id : Nat) : Option Author :=
  db.authors.find? (fun a => a.author_id == id)

/-- Fields of the add-book form; `publication_year` and `author_id` carry the
column values the submitted strings are coerced to. -/
structure BookForm where
  title : String
  isbn : String
  publication_year : Option Int
  author_id : Option Nat
deriving DecidableEq, Repr

/-- Outcome of the Google Books API call made by `fetch_book_image`, one
constructor per control path of the Python function: the request or the JSON
parse raised; the parsed object has no "items" key; indexing
`items[0]["volumeInfo"]` raised (empty list or missing key); or a volumeInfo
object was reached, carrying its `imageLinks.thumbnail` field when present. -/
inductive ApiOutcome
  | requestError
  | noItems
  | itemsAccessError
  | volumeInfo (thumbnail : Option String)
deriving DecidableEq, Repr

/-- Function `fetch_book_image(title, isbn)` of app.py: every raised exception is caught
and every missing field defaulted, so the function returns the thumbnail URL
when one was reached and the empty string in all other cases.  The title and
isbn only form the query sent to the collaborator; the collaborator's behaviour
is the `outcome` argument. -/
def fetch_book_image (title isbn : String) (outcome : ApiOutcome) : String :=
  match outcome with
  | .requestError => ""
  | .noItems => ""
  | .itemsAccessError => ""
  | .volumeInfo thumbnail => thumbnail.getD ""

/-- POST branch of `/add_book` in app.py: read the form fields, fetch the cover
image URL, build the new `Book` row, add it to the session, commit, and return
the success message. -/
def add_book (form : BookForm) (outcome : ApiOutcome) (db : DB) : String × DB :=
  let image_url := fetch_book_image form.title form.isbn outcome
  ("New book successfully added to database",
    ⟨db.authors,
      db.books ++ [⟨next_book_id db, form.isbn, form.title, form.publication_year,
        form.author_id, image_url⟩]⟩)

/-- A lookup outcome the specification counts as a failure: anything that does
not deliver a thumbnail URL (network error, malformed response, missing
fields). -/
def lookupFailed (outcome : ApiOutcome) : Bool :=
  match outcome with
  | .volumeInfo (some _) => false
  | _ => true

/-! ### Theorems about the delete route -/

/-- Any member of a Nat list is bounded by the list's foldr-max. -/
theorem le_foldr_max (l : List Nat) (x : Nat) (hx : x ∈ l) : x ≤ l.foldr max 0 := by
  induction l with
  | nil => cases hx
  | cons y l ih =>
    rcases List.mem_cons.mp hx with h | h
    · subst h; exact Nat.le_max_left _ _
    · exact Nat.le_trans (ih h) (Nat.le_max_right _ _)

/-- C3: a delete request for a book id that no stored book has returns the 404
Not-Found response and leaves the store completely unchanged — no book row and
no author row is removed. -/
theorem delete_missing_book_not_found (book_id : Nat) (db : DB)
    (h : ∀ b ∈ db.books, b.book_id ≠ book_id) :
    delete book_id db = (.notFound book_id, db) := by
  have hf : db.books.find? (fun b => b.book_id == book_id) = none :=
    List.find?_eq_none.mpr (fun b hb => by simpa using h b hb)
  simp [delete, hf]

/-- Witness for C3 at a concrete store and missing id. -/
theorem delete_missing_book_not_found_witness :
    delete 7 ⟨[⟨1, "Jane Austen", "1775", "1817"⟩], [⟨1, "123", "Emma", some 1815, some 1, ""⟩]⟩
      = (.notFound 7, ⟨[⟨1, "Jane Austen", "1775", "1817"⟩], [⟨1, "123", "Emma", some 1815, some 1, ""⟩]⟩) :=
  delete_missing_book_not_found 7 _ (by decide)

/-- C10: deleting an existing book removes exactly the rows with that book id
from the book table — every other book row survives with all fields unchanged —
and the orphan sweep only ever removes rows from the author table (the
surviving author list is a sublist of the original). -/
theorem delete_frame_only_target_book (book_id : Nat) (db : DB)
    (h : ∃ b ∈ db.books, b.book_id = book_id) :
    (delete book_id db).2.books = db.books.filter (fun b => b.book_id != book_id)
      ∧ (delete book_id db).2.authors.Sublist db.authors := by
  obtain ⟨b, hb, hid⟩ := h
  cases hf : db.books.find? (fun x => x.book_id == book_id) with
  | none =>
    exact absurd hid (by simpa using List.find?_eq_none.mp hf b hb)
  | some b' =>
    refine ⟨by simp [delete, hf], ?_⟩
    simp only [delete, hf]
    exact List.filter_sublist db.authors

/-- Witness for C10: deleting book 1 of two books by the same author. -/
theorem delete_frame_only_target_book_witness :
    (delete 1 ⟨[⟨1, "Jane Austen", "1775", "1817"⟩],
        [⟨1, "123", "Emma", some 1815, some 1, ""⟩, ⟨2, "456", "Persuasion", some 1817, some 1, ""⟩]⟩).2.books
        = ([⟨1, "123", "Emma", some 1815, some 1, ""⟩,
            ⟨2, "456", "Persuasion", some 1817, some 1, ""⟩] : List Book).filter (fun b => b.book_id != 1)
      ∧ (delete 1 ⟨[⟨1, "Jane Austen", "1775", "1817"⟩],
          [⟨1, "123", "Emma", some 1815, some 1, ""⟩,
           ⟨2, "456", "Persuasion", some 1817, some 1, ""⟩]⟩).2.authors.Sublist
          [⟨1, "Jane Austen", "1775", "1817"⟩] :=
  delete_frame_only_target_book 1 _ (by decide)

/-- C9: when after deleting an existing book some remaining book row has a NULL
author reference, the NOT-IN predicate of the orphan sweep is UNKNOWN for every
author, so the sweep deletes no author at all. -/
theorem delete_null_ref_sweep_deletes_nothing (book_id : Nat) (db : DB)
    (h1 : ∃ b ∈ db.books, b.book_id = book_id)
    (h2 : ∃ b ∈ db.books, b.book_id ≠ book_id ∧ b.author_id = none) :
    (delete book_id db).2.authors = db.authors := by
  obtain ⟨b, hb, hbid⟩ := h1
  obtain ⟨c, hc, hcid, hcnull⟩ := h2
  cases hf : db.books.find? (fun x => x.book_id == book_id) with
  | none =>
    exact absurd hbid (by simpa using List.find?_eq_none.mp hf b hb)
  | some b' =>
    simp only [delete, hf]
    apply List.filter_eq_self.mpr
    intro a ha
    simp [sqlNotIn]
    exact Or.inr ⟨c, ⟨hc, hcid⟩, hcnull⟩

/-- Witness for C9: deleting book 1 while book 2 has a NULL author reference
leaves the (now bookless) author 1 in the store. -/
theorem delete_null_ref_sweep_deletes_nothing_witness :
    (delete 1 ⟨[⟨1, "Jane Austen", "1775", "1817"⟩],
        [⟨1, "123", "Emma", some 1815, some 1, ""⟩,
         ⟨2, "456", "Orphaned", none, none, ""⟩]⟩).2.authors
      = [⟨1, "Jane Austen", "1775", "1817"⟩] :=
  delete_null_ref_sweep_deletes_nothing 1 _ (by decide) (by decide)

/-- C1 counterexample: delete book 1 from a store where book 2 has a NULL
author reference.  Author 1 has no remaining referencing book, yet the sweep
leaves it in the store (the NULL poisons the NOT-IN predicate), so "an author
remains iff at least one remaining book references it" fails as stated. -/
theorem delete_author_remains_iff_referenced_cex :
    (⟨1, "Jane Austen", "1775", "1817"⟩ : Author) ∈
        (delete 1 ⟨[⟨1, "Jane Austen", "1775", "1817"⟩],
          [⟨1, "123", "Emma", some 1815, some 1, ""⟩,
           ⟨2, "456", "Orphaned", none, none, ""⟩]⟩).2.authors
      ∧ ∀ b ∈ (delete 1 ⟨[⟨1, "Jane Austen", "1775", "1817"⟩],
          [⟨1, "123", "Emma", some 1815, some 1, ""⟩,
           ⟨2, "456", "Orphaned", none, none, ""⟩]⟩).2.books,
          b.author_id ≠ some 1 := by decide

/-- C1 (amended): after a successful delete of an existing book, provided no
remaining book row carries a NULL author reference, an author is in the store
iff at least one remaining book references it; in particular every author with
no remaining referencing book is swept, and an author one of whose several
books was deleted remains. -/
theorem delete_author_remains_iff_referenced (book_id : Nat) (db : DB) (a : Author)
    (h1 : ∃ b ∈ db.books, b.book_id = book_id)
    (h2 : ∀ b ∈ db.books, b.book_id ≠ book_id → b.author_id ≠ none) :
    a ∈ (delete book_id db).2.authors
      ↔ a ∈ db.authors
          ∧ ∃ b ∈ (delete book_id db).2.books, b.author_id = some a.author_id := by
  obtain ⟨b, hb, hbid⟩ := h1
  cases hf : db.books.find? (fun x => x.book_id == book_id) with
  | none =>
    exact absurd hbid (by simpa using List.find?_eq_none.mp hf b hb)
  | some b' =>
    simp only [delete, hf]
    rw [List.mem_filter]
    apply and_congr_right
    intro _
    simp only [sqlNotIn, List.mem_filter]
    simp
    intro x hx hxid hxnull
    exact absurd hxnull (h2 x hx hxid)

/-- Witness for C1 at a concrete store: deleting one of the two books of
author 1 leaves author 1 present, and the iff holds for that author. -/
theorem delete_author_remains_iff_referenced_witness :
    (⟨1, "Jane Austen", "1775", "1817"⟩ : Author) ∈
        (delete 1 ⟨[⟨1, "Jane Austen", "1775", "1817"⟩],
          [⟨1, "123", "Emma", some 1815, some 1, ""⟩,
           ⟨2, "456", "Persuasion", some 1817, some 1, ""⟩]⟩).2.authors
      ↔ (⟨1, "Jane Austen", "1775", "1817"⟩ : Author) ∈
            ([⟨1, "Jane Austen", "1775", "1817"⟩] : List Author)
          ∧ ∃ b ∈ (delete 1 ⟨[⟨1, "Jane Austen", "1775", "1817"⟩],
              [⟨1, "123", "Emma", some 1815, some 1, ""⟩,
               ⟨2, "456", "Persuasion", some 1817, some 1, ""⟩]⟩).2.books,
              b.author_id = some 1 :=
  delete_author_remains_iff_referenced 1 _ _ (by decide) (by decide)

/-! ### Theorems about the add routes -/

/-- C8: creating an author from the form and immediately reading the stored
record back by its assigned id yields exactly the submitted field values. -/
theorem add_author_roundtrip (form : AuthorForm) (db : DB) :
    get_author (add_author form db).2 (next_author_id db)
      = some ⟨next_author_id db, form.name, form.birthdate, form.date_of_death⟩ := by
  unfold get_author add_author
  rw [List.find?_append]
  have h1 : db.authors.find? (fun a => a.author_id == next_author_id db) = none := by
    apply List.find?_eq_none.mpr
    intro a ha
    have hle : a.author_id ≤ (db.authors.map (fun a => a.author_id)).foldr max 0 :=
      le_foldr_max _ _ (List.mem_map.mpr ⟨a, ha, rfl⟩)
    simp only [next_author_id] at *
    simp
    omega
  rw [h1]
  simp

/-- C4: when the cover-image lookup fails in any of its ways — the request or
the JSON parse raised, the response has no items, indexing into the first item
raised, or the thumbnail field is missing — the failure is absorbed: add_book
still returns the success message and commits the new book, with the empty
string as its image_url. -/
theorem add_book_lookup_failure_recovered (form : BookForm) (outcome : ApiOutcome) (db : DB)
    (h : lookupFailed outcome = true) :
    add_book form outcome db
      = ("New book successfully added to database",
          ⟨db.authors, db.books ++ [⟨next_book_id db, form.isbn, form.title,
            form.publication_year, form.author_id, ""⟩]⟩) := by
  cases outcome with
  | requestError => rfl
  | noItems => rfl
  | itemsAccessError => rfl
  | volumeInfo thumbnail =>
    cases thumbnail with
    | none => rfl
    | some u => simp [lookupFailed] at h

/-- Witness for C4: a network failure while adding "Emma" to an empty store. -/
theorem add_book_lookup_failure_recovered_witness :
    add_book ⟨"Emma", "123", some 1815, some 1⟩ .requestError ⟨[], []⟩
      = ("New book successfully added to database",
          ⟨[], [⟨1, "123", "Emma", some 1815, some 1, ""⟩]⟩) :=
  add_book_lookup_failure_recovered ⟨"Emma", "123", some 1815, some 1⟩ .requestError ⟨[], []⟩ rfl

/-- C5: when the lookup reaches a volumeInfo carrying a thumbnail URL, exactly
that string is stored unmodified as the image_url of the created book. -/
theorem add_book_stores_thumbnail_verbatim (form : BookForm) (url : String) (db : DB) :
    add_book form (.volumeInfo (some url)) db
      = ("New book successfully added to database",
          ⟨db.authors, db.books ++ [⟨next_book_id db, form.isbn, form.title,
            form.publication_year, form.author_id, url⟩]⟩) := rfl

/-! ### Theorems about the sort routes -/

/-- C7: sort_by_title returns all books of the store (a permutation of the
book table) in a sequence whose titles are non-decreasing in the lexicographic
string order. -/
theorem sort_by_title_all_books_sorted (db : DB) :
    (sort_by_title db).Perm db.books
      ∧ List.Pairwise (fun b1 b2 : Book => b1.title ≤ b2.title) (sort_by_title db) := by
  constructor
  · exact List.perm_insertionSort _ db.books
  · haveI : IsTotal Book (fun b1 b2 => b1.title ≤ b2.title) :=
      ⟨fun a b => le_total a.title b.title⟩
    haveI : IsTrans Book (fun b1 b2 => b1.title ≤ b2.title) :=
      ⟨fun a b c h1 h2 => le_trans h1 h2⟩
    exact List.sorted_insertionSort _ db.books

/-- With pairwise-distinct author ids (primary-key uniqueness), the author rows
matching one foreign-key value, projected to any constant, form a singleton or
the empty list according to whether a matching author exists. -/
theorem filter_unique_map_const {β : Type} (A : List Author) (v : Option Nat) (b : β)
    (hn : (A.map (fun a => a.author_id)).Nodup) :
    (A.filter (fun a => v == some a.author_id)).map (fun _ => b)
      = if A.any (fun a => v == some a.author_id) then [b] else [] := by
  induction A with
  | nil => rfl
  | cons a A ih =>
    rw [List.map_cons] at hn
    have hn' := List.nodup_cons.mp hn
    cases hv : (v == some a.author_id) with
    | false =>
      rw [List.filter_cons_of_neg (by simp [hv]), List.any_cons, hv]
      simpa using ih hn'.2
    | true =>
      have hveq : v = some a.author_id := by simpa using hv
      have hrest : A.filter (fun x => v == some x.author_id) = [] := by
        apply List.filter_eq_nil_iff.mpr
        intro x hx hpx
        rw [hveq] at hpx
        have hxa : a.author_id = x.author_id := by simpa using hpx
        exact hn'.1 (List.mem_map.mpr ⟨x, hx, hxa.symm⟩)
      rw [List.filter_cons_of_pos (by simp [hv]), List.any_cons, hv]
      simp [hrest]

/-- With primary-key uniqueness of author ids, projecting the joined rows back
to their book component yields exactly the books whose author reference
matches some stored author. -/
theorem flatMap_joinAuthor_fst (db : DB) (bs : List Book)
    (hn : (db.authors.map (fun a => a.author_id)).Nodup) :
    (bs.flatMap (joinAuthor db)).map (fun r => r.1)
      = bs.filter (fun b => db.authors.any (fun a => b.author_id == some a.author_id)) := by
  induction bs with
  | nil => rfl
  | cons b bs ih =>
    rw [List.flatMap_cons, List.map_append, ih]
    have hhead : (joinAuthor db b).map (fun r => r.1)
        = if db.authors.any (fun a => b.author_id == some a.author_id) then [b] else [] := by
      unfold joinAuthor
      rw [List.map_map]
      exact filter_unique_map_const db.authors b.author_id b hn
    rw [hhead]
    cases hany : db.authors.any (fun a => b.author_id == some a.author_id) with
    | true => rw [List.filter_cons_of_pos (by simp [hany])]; simp
    | false => rw [List.filter_cons_of_neg (by simp [hany])]; simp

/-- Every row of the join pairs a stored author with a book whose foreign key
matches that author. -/
theorem mem_joined_author_matches (db : DB) (r : Book × Author)
    (hr : r ∈ db.books.flatMap (joinAuthor db)) :
    r.2 ∈ db.authors ∧ r.1.author_id = some r.2.author_id := by
  obtain ⟨b, hb, hrb⟩ := List.mem_flatMap.mp hr
  unfold joinAuthor at hrb
  obtain ⟨a, ha, rfl⟩ := List.mem_map.mp hrb
  have hfa := List.mem_filter.mp ha
  exact ⟨hfa.1, by simpa using hfa.2⟩

/-- Under primary-key uniqueness, the resolved author name of a book equals the
name of any stored author its foreign key matches. -/
theorem authorName_of_matching (db : DB) (b : Book) (a : Author)
    (hn : (db.authors.map (fun x => x.author_id)).Nodup)
    (ha : a ∈ db.authors) (hmatch : b.author_id = some a.author_id) :
    authorName db b = a.name := by
  unfold authorName
  cases hfind : db.authors.find? (fun x => b.author_id == some x.author_id) with
  | none =>
    have := List.find?_eq_none.mp hfind a ha
    simp [hmatch] at this
  | some a0 =>
    have h1 : b.author_id = some a0.author_id := by simpa using List.find?_some hfind
    have h2 : a0 ∈ db.authors := List.mem_of_find?_eq_some hfind
    have heq : a0.author_id = a.author_id := by
      rw [hmatch] at h1
      exact (Option.some_inj.mp h1).symm
    have : a0 = a := List.inj_on_of_nodup_map hn h2 ha heq
    rw [this]

/-- C2 counterexample: a book with a NULL author reference is dropped by the
INNER JOIN, so sort_by_author does not return every book in the store. -/
theorem sort_by_author_all_books_cex :
    (⟨1, "999", "Loose", none, none, ""⟩ : Book)
        ∈ (⟨[], [⟨1, "999", "Loose", none, none, ""⟩]⟩ : DB).books
      ∧ (⟨1, "999", "Loose", none, none, ""⟩ : Book)
          ∉ sort_by_author ⟨[], [⟨1, "999", "Loose", none, none, ""⟩]⟩ := by
  refine ⟨by decide, ?_⟩
  intro h
  simp [sort_by_author, joinAuthor, List.insertionSort] at h

/-- C2 (amended): under primary-key uniqueness of author ids, sort_by_author
returns exactly the books whose author reference matches a stored author —
each such book exactly once — ordered by the name of the referenced author,
resolved through the Author relation. -/
theorem sort_by_author_joined_books_sorted (db : DB)
    (hn : (db.authors.map (fun a => a.author_id)).Nodup) :
    (sort_by_author db).Perm
        (db.books.filter (fun b => db.authors.any (fun a => b.author_id == some a.author_id)))
      ∧ List.Pairwise (fun b1 b2 => authorName db b1 ≤ authorName db b2) (sort_by_author db) := by
  constructor
  · have hperm : (List.insertionSort (fun r1 r2 => r1.2.name ≤ r2.2.name)
        (db.books.flatMap (joinAuthor db))).Perm (db.books.flatMap (joinAuthor db)) :=
      List.perm_insertionSort _ _
    have hmap := hperm.map (fun r => r.1)
    rw [flatMap_joinAuthor_fst db db.books hn] at hmap
    exact hmap
  · haveI : IsTotal (Book × Author) (fun r1 r2 => r1.2.name ≤ r2.2.name) :=
      ⟨fun a b => le_total a.2.name b.2.name⟩
    haveI : IsTrans (Book × Author) (fun r1 r2 => r1.2.name ≤ r2.2.name) :=
      ⟨fun a b c h1 h2 => le_trans h1 h2⟩
    have hs := List.sorted_insertionSort (fun r1 r2 : Book × Author => r1.2.name ≤ r2.2.name)
      (db.books.flatMap (joinAuthor db))
    unfold sort_by_author
    rw [List.pairwise_map]
    apply List.Pairwise.imp_of_mem ?_ hs
    intro r1 r2 h1 h2 hle
    have m1 := mem_joined_author_matches db r1 ((List.mem_insertionSort _).mp h1)
    have m2 := mem_joined_author_matches db r2 ((List.mem_insertionSort _).mp h2)
    rw [authorName_of_matching db r1.1 r1.2 hn m1.1 m1.2,
      authorName_of_matching db r2.1 r2.2 hn m2.1 m2.2]
    exact hle

/-- Witness for C2 at a concrete two-author store. -/
theorem sort_by_author_joined_books_sorted_witness :
    (sort_by_author ⟨[⟨1, "Jane Austen", "1775", "1817"⟩, ⟨2, "Bram Stoker", "1847", "1912"⟩],
        [⟨1, "123", "Emma", some 1815, some 1, ""⟩, ⟨2, "456", "Dracula", some 1897, some 2, ""⟩]⟩).Perm
        ((⟨[⟨1, "Jane Austen", "1775", "1817"⟩, ⟨2, "Bram Stoker", "1847", "1912"⟩],
          [⟨1, "123", "Emma", some 1815, some 1, ""⟩,
           ⟨2, "456", "Dracula", some 1897, some 2, ""⟩]⟩ : DB).books.filter
          (fun b => ([⟨1, "Jane Austen", "1775", "1817"⟩,
            ⟨2, "Bram Stoker", "1847", "1912"⟩] : List Author).any
            (fun a => b.author_id == some a.author_id)))
      ∧ List.Pairwise (fun b1 b2 =>
          authorName ⟨[⟨1, "Jane Austen", "1775", "1817"⟩, ⟨2, "Bram Stoker", "1847", "1912"⟩],
            [⟨1, "123", "Emma", some 1815, some 1, ""⟩,
             ⟨2, "456", "Dracula", some 1897, some 2, ""⟩]⟩ b1
            ≤ authorName ⟨[⟨1, "Jane Austen", "1775", "1817"⟩, ⟨2, "Bram Stoker", "1847", "1912"⟩],
              [⟨1, "123", "Emma", some 1815, some 1, ""⟩,
               ⟨2, "456", "Dracula", some 1897, some 2, ""⟩]⟩ b2)
          (sort_by_author ⟨[⟨1, "Jane Austen", "1775", "1817"⟩, ⟨2, "Bram Stoker", "1847", "1912"⟩],
            [⟨1, "123", "Emma", some 1815, some 1, ""⟩,
             ⟨2, "456", "Dracula", some 1897, some 2, ""⟩]⟩) :=
  sort_by_author_joined_books_sorted _ (by decide)

/-! ### The LIKE matcher versus plain substring containment -/

/-- Absence of the SQL LIKE wildcard characters from a code-point list. -/
abbrev noWildcards (l : List Char) : Prop :=
  ∀ c ∈ l, c ≠ '%' ∧ c ≠ '_'

/-- ASCII case folding can only produce a code point that is the input itself
or a lowercase letter, so it never produces a character below code point 97
that was not already there. -/
theorem toLower_ne_of_lt (c x : Char) (hx : x.toNat < 97) (h : c ≠ x) :
    c.toLower ≠ x := by
  have hdef : c.toLower = if c.toNat ≥ 65 ∧ c.toNat ≤ 90 then Char.ofNat (c.toNat + 32) else c :=
    rfl
  rw [hdef]
  by_cases hcond : c.toNat ≥ 65 ∧ c.toNat ≤ 90
  · rw [if_pos hcond]
    intro heq
    have hv : Nat.isValidChar (c.toNat + 32) := Or.inl (by omega)
    have ht : (Char.ofNat (c.toNat + 32)).toNat = c.toNat + 32 := by
      unfold Char.ofNat
      rw [dif_pos hv]
      rfl
    rw [heq] at ht
    omega
  · rw [if_neg hcond]
    exact h

/-- Case folding preserves wildcard-freeness. -/
theorem noWildcards_foldCase (l : List Char) (h : noWildcards l) :
    noWildcards (foldCase l) := by
  intro c hc
  obtain ⟨d, hd, rfl⟩ := List.mem_map.mp hc
  obtain ⟨h1, h2⟩ := h d hd
  exact ⟨toLower_ne_of_lt d '%' (by decide) h1, toLower_ne_of_lt d '_' (by decide) h2⟩

/-- The pattern consisting of a single `%` matches every string. -/
theorem likeMatch_percent (s : List Char) : likeMatch ['%'] s = true := by
  show anySuffix (likeMatch []) s = true
  induction s with
  | nil => rfl
  | cons c s ih =>
    show (likeMatch [] (c :: s) || anySuffix (likeMatch []) s) = true
    rw [ih]
    simp

/-- A wildcard-free pattern followed by `%` matches exactly the strings it is
an initial segment of. -/
theorem likeMatch_append_percent (p : List Char) (hp : noWildcards p) :
    ∀ s, likeMatch (p ++ ['%']) s = startsWithChars p s := by
  induction p with
  | nil => exact fun s => likeMatch_percent s
  | cons q p ih =>
    intro s
    obtain ⟨hq1, hq2⟩ := hp q (List.mem_cons_self q p)
    have hp' : noWildcards p := fun c hc => hp c (List.mem_cons_of_mem q hc)
    cases s with
    | nil =>
      show (if q == '%' then anySuffix (likeMatch (p ++ ['%'])) [] else false) = false
      rw [if_neg (by simpa using hq1)]
    | cons c s =>
      show (if q == '%' then anySuffix (likeMatch (p ++ ['%'])) (c :: s)
        else (q == '_' || q == c) && likeMatch (p ++ ['%']) s) = (q == c && startsWithChars p s)
      rw [if_neg (by simpa using hq1), ih hp' s]
      have : (q == '_') = false := by simpa using hq2
      rw [this]
      simp

/-- Evaluation of `anySuffix` only looks at its function argument pointwise. -/
theorem anySuffix_congr (f g : List Char → Bool) (h : ∀ t, f t = g t) :
    ∀ s, anySuffix f s = anySuffix g s := by
  intro s
  induction s with
  | nil => exact h []
  | cons c s ih =>
    show (f (c :: s) || anySuffix f s) = (g (c :: s) || anySuffix g s)
    rw [h (c :: s), ih]

/-- Checking an initial-segment match at every suffix is exactly substring
containment. -/
theorem anySuffix_startsWith (p : List Char) :
    ∀ s, anySuffix (startsWithChars p) s = containsSub p s := by
  intro s
  induction s with
  | nil =>
    show startsWithChars p [] = containsSub p []
    cases p <;> rfl
  | cons c s ih =>
    show (startsWithChars p (c :: s) || anySuffix (startsWithChars p) s)
      = (startsWithChars p (c :: s) || containsSub p s)
    rw [ih]

/-- The compiled ilike pattern `%term%`, for a wildcard-free term, matches
exactly the strings containing the term as a contiguous substring. -/
theorem likeMatch_percent_wrap (p : List Char) (hp : noWildcards p) (s : List Char) :
    likeMatch ('%' :: (p ++ ['%'])) s = containsSub p s := by
  show anySuffix (likeMatch (p ++ ['%'])) s = containsSub p s
  rw [anySuffix_congr _ _ (likeMatch_append_percent p hp) s, anySuffix_startsWith]

/-- C6 counterexample: the search term is interpolated into the LIKE pattern
unescaped, so searching for "%" (a substring of no stored title) matches every
book instead of producing the no-results state. -/
theorem home_search_substring_filter_cex :
    home_post "%" ⟨[], [⟨1, "123", "Emma", some 1815, some 1, ""⟩]⟩
        = .page [⟨1, "123", "Emma", some 1815, some 1, ""⟩]
      ∧ ([⟨1, "123", "Emma", some 1815, some 1, ""⟩] : List Book).filter
          (fun b => containsSub (foldCase ("%" : String).data) (foldCase b.title.data)) = [] := by
  decide

/-- C6 (amended): for every search term free of the SQL LIKE wildcard
characters `%` and `_`, the home search returns exactly the books whose title
contains the term as a case-insensitive substring, and the distinct no-results
answer when no title does. -/
theorem home_search_substring_filter (search : String) (db : DB)
    (h : noWildcards search.data) :
    home_post search db
      = (if (db.books.filter
            (fun b => containsSub (foldCase search.data) (foldCase b.title.data))).length = 0
         then HomeResult.noBooksFound
         else HomeResult.page (db.books.filter
            (fun b => containsSub (foldCase search.data) (foldCase b.title.data)))) := by
  have hfc : ∀ b ∈ db.books,
      likeMatch (foldCase ("%" ++ search ++ "%").data) (foldCase b.title.data)
        = containsSub (foldCase search.data) (foldCase b.title.data) := by
    intro b _
    have hdata : ("%" ++ search ++ "%").data = '%' :: (search.data ++ ['%']) := rfl
    have hfold : foldCase ('%' :: (search.data ++ ['%']))
        = '%' :: (foldCase search.data ++ ['%']) := by
      unfold foldCase
      rw [List.map_cons, List.map_append]
      rfl
    rw [hdata, hfold, likeMatch_percent_wrap _ (noWildcards_foldCase _ h)]
  show (if (db.books.filter (fun b =>
      likeMatch (foldCase ("%" ++ search ++ "%").data) (foldCase b.title.data))).length = 0
    then HomeResult.noBooksFound
    else HomeResult.page (db.books.filter (fun b =>
      likeMatch (foldCase ("%" ++ search ++ "%").data) (foldCase b.title.data)))) = _
  rw [List.filter_congr hfc]

/-- Witness for C6: searching "em" in a store whose single book is titled
"Emma" (the match is case-insensitive). -/
theorem home_search_substring_filter_witness :
    home_post "em" ⟨[], [⟨1, "123", "Emma", some 1815, some 1, ""⟩]⟩
      = (if ((⟨[], [⟨1, "123", "Emma", some 1815, some 1, ""⟩]⟩ : DB).books.filter
            (fun b => containsSub (foldCase ("em" : String).data) (foldCase b.title.data))).length = 0
         then HomeResult.noBooksFound
         else HomeResult.page ((⟨[], [⟨1, "123", "Emma", some 1815, some 1, ""⟩]⟩ : DB).books.filter
            (fun b => containsSub (foldCase ("em" : String).data) (foldCase b.title.data)))) :=
  home_search_substring_filter "em" ⟨[], [⟨1, "123", "Emma", some 1815, some 1, ""⟩]⟩ (by decide)
